import Mathlib

/-!
Verification development for the Pancho-Sidebar dashboard shell.

The application is a React dashboard that renders a configurable sidebar
from a single `settings.json` document, resolves the browser's location
hash to a navigation link, and hosts the link's configured `iframeUrl`
in an embedded frame after a domain allow-list check.  The definitions
below are a shallow embedding of the routing, security and URL
composition logic of `src/App.tsx`, of the sidebar state logic of
`src/components/Sidebar.tsx`, and of the settings loading effect of
`src/contexts/SettingsContext.tsx`.
-/

namespace Pancho

/-! ## String helpers

Structurally recursive models of the JS string operations the source
uses (`startsWith`, `endsWith`, splitting at a separator), so that
every definition below evaluates on concrete inputs. -/

/-- `s.startsWith(p)`. -/
def strStartsWith (s p : String) : Bool :=
  p.toList.isPrefixOf s.toList

/-- `s.endsWith(p)`. -/
def strEndsWith (s p : String) : Bool :=
  p.toList.isSuffixOf s.toList

/-- Break a character list at the first occurrence of `c`: the part
before it, and the part after it when `c` occurs. -/
def breakAt (c : Char) : List Char → List Char × Option (List Char)
  | [] => ([], none)
  | x :: xs =>
    if x = c then ([], some xs)
    else
      let p := breakAt c xs
      (x :: p.1, p.2)

/-- Split a string at the first occurrence of a separator character:
returns the part before it and the part after it (the remainder is
empty when the character does not occur, which coincides with the
character occurring at the very end). -/
def splitFirst (s : String) (c : Char) : String × String :=
  match breakAt c s.toList with
  | (pre, none) => (pre.asString, "")
  | (pre, some post) => (pre.asString, post.asString)

/-- Split a character list at every occurrence of `c` (the shape
`String.prototype.split` produces for a one-character separator). -/
def splitAllChar (c : Char) : List Char → List (List Char)
  | [] => [[]]
  | x :: xs =>
    let r := splitAllChar c xs
    if x = c then [] :: r
    else
      match r with
      | [] => [[x]]
      | y :: ys => (x :: y) :: ys

/-- Break a character list at the first occurrence of the pattern
`pat`: the part before it and the part after it, or `none` when the
pattern does not occur. -/
def breakAtSub (pat : List Char) : List Char → Option (List Char × List Char)
  | [] => if pat.isEmpty then some ([], []) else none
  | x :: xs =>
    if pat.isPrefixOf (x :: xs) then some ([], (x :: xs).drop pat.length)
    else
      match breakAtSub pat xs with
      | none => none
      | some (pre, post) => some (x :: pre, post)

/-! ## Model of the browser URL machinery

`src/App.tsx` builds the frame URL with the platform's WHATWG `URL`
constructor: `new URL(iframeUrl, window.location.origin)`.  The model
below covers the URL shapes this application configures: absolute URLs
`scheme://host/path?query#fragment`, protocol-relative `//host/...`,
and path-relative inputs resolved against the page origin.  Userinfo,
ports, percent-decoding, hostname case folding and dot-segment
normalisation are outside the model; the hostnames and paths it is
applied to do not use them. -/

/-- A parsed URL.  `fragment` is stored without the leading `#`
(the empty string means no fragment, as with the JS `url.hash`
accessor). -/
structure Url where
  scheme : String
  host : String
  path : String
  query : List (String × String)
  fragment : String
deriving Repr, DecidableEq

/-- Parse a query string the way `URLSearchParams` does: split on `&`,
skip empty segments, and split each segment at its first `=` (a segment
without `=` is a key with empty value). -/
def parseQuery (qs : String) : List (String × String) :=
  if qs = "" then []
  else (splitAllChar '&' qs.toList).filterMap fun seg =>
    if seg.isEmpty then none
    else some (splitFirst seg.asString '=')

/-- Split an authority-plus-path remainder into hostname and path
(the path defaults to `/`, as the URL parser produces for special
schemes). -/
def splitHostPath (s : String) : String × String :=
  let p := splitFirst s '/'
  (p.1, "/" ++ p.2)

/-- Models the browser URL constructor `new URL(input, origin)` with
`origin = scheme://host`, returning `none` where the constructor
throws (empty host or empty scheme in an absolute form).  Extra
slashes after `//` are skipped, as the WHATWG parser does for special
schemes. -/
def parseURL (originScheme originHost : String) (input : String) : Option Url :=
  let p1 := splitFirst input '#'
  let frag := p1.2
  let p2 := splitFirst p1.1 '?'
  let base := p2.1
  let query := parseQuery p2.2
  if strStartsWith base "//" then
    let rest := ((base.toList.drop 2).dropWhile (· = '/')).asString
    let hp := splitHostPath rest
    if hp.1 = "" then none
    else some ⟨originScheme, hp.1, hp.2, query, frag⟩
  else
    match breakAtSub ("://".toList) base.toList with
    | some (schL, restL) =>
      let sch := schL.asString
      let rest := (restL.dropWhile (· = '/')).asString
      let hp := splitHostPath rest
      if sch = "" ∨ hp.1 = "" then none
      else some ⟨sch, hp.1, hp.2, query, frag⟩
    | none =>
      if strStartsWith base "/" then
        some ⟨originScheme, originHost, base, query, frag⟩
      else
        some ⟨originScheme, originHost,
          "/" ++ (if strStartsWith base "./" then base.drop 2 else base), query, frag⟩

/-- Models the JS `url.hash = h` setter: a leading `#` of the assigned
value is stripped before it is stored as the fragment. -/
def setHash (u : Url) (h : String) : Url :=
  { u with fragment := if strStartsWith h "#" then h.drop 1 else h }

/-! ## Data model of `settings.json` (src/types.ts via its uses) -/

/-- A clickable navigation link (`type: 'link'` entries and the
children of `type: 'submenu'` entries). -/
structure NavLink where
  href : String
  label : String
  iframeUrl : Option String
deriving Repr, DecidableEq

/-- One entry of `settings.sidebar.navItems`: a link, a non-clickable
header, or a collapsible submenu of links identified by `path`. -/
inductive NavItem where
  | link (l : NavLink)
  | header (label : String)
  | submenu (label : String) (path : String) (children : List NavLink)
deriving Repr, DecidableEq

/-- The profile block at the bottom of the sidebar. -/
structure ProfileSettings where
  name : String
  role : String
  icon : String
  href : String
deriving Repr, DecidableEq

/-- The `sidebar` section of `settings.json`. -/
structure SidebarSettings where
  defaultState : String
  logoUrl : String
  profile : ProfileSettings
  navItems : List NavItem
deriving Repr, DecidableEq

/-- The `security` section of `settings.json`. -/
structure SecuritySettings where
  allowedIframeDomains : List String
deriving Repr, DecidableEq

/-- The whole `settings.json` document.  `security` is optional: the
code reads it with optional chaining
(`settings?.security?.allowedIframeDomains ?? []`). -/
structure AppSettings where
  theme : List (String × String)
  security : Option SecuritySettings
  sidebar : SidebarSettings
deriving Repr, DecidableEq

/-- The allow-list the security check uses:
`settings?.security?.allowedIframeDomains ?? []`. -/
def allowedOf (settings : AppSettings) : List String :=
  (settings.security.map SecuritySettings.allowedIframeDomains).getD []

/-! ## Routing (src/App.tsx, `findNavItemByHref` and `findDefaultHref`) -/

/-- Whether a nav link matches the current hash: the hash starts with
the link's `href`, and the character right after that prefix is absent
(exact match) or `#` (the code's `nextChar === undefined || nextChar
=== '#'` test, phrased on the remaining suffix). -/
def isMatch (href : String) (l : NavLink) : Bool :=
  strStartsWith href l.href &&
    (href.drop l.href.length = "" || strStartsWith (href.drop l.href.length) "#")

/-- One step of the scan in `findNavItemByHref` (the inner `checkItem`
closure): a matching link replaces the best match so far when there is
none yet or when its `href` is strictly longer; the leftover suffix of
the hash is recorded alongside it. -/
def checkItem (href : String) (best : Option (NavLink × String)) (item : NavLink) :
    Option (NavLink × String) :=
  if isMatch href item then
    match best with
    | none => some (item, href.drop item.href.length)
    | some (b, r) =>
      if item.href.length > b.href.length then some (item, href.drop item.href.length)
      else some (b, r)
  else best

/-- The links a nav item contributes to the scan: a `link` item itself,
the children of a `submenu` item, nothing for a `header`. -/
def linksOf : NavItem → List NavLink
  | .link l => [l]
  | .header _ => []
  | .submenu _ _ children => children

/-- `findNavItemByHref` from src/App.tsx: scan every top-level link and
every submenu child in order, keeping the best (longest-href) match,
together with the leftover suffix of the hash as the iframe hash. -/
def findNavItemByHref (navItems : List NavItem) (href : String) :
    Option (NavLink × String) :=
  navItems.foldl (fun best item => (linksOf item).foldl (checkItem href) best) none

/-- The flattened list of nav links, in scan order. -/
def navLinks : List NavItem → List NavLink
  | [] => []
  | item :: rest => linksOf item ++ navLinks rest

/-- `findDefaultHref` from src/App.tsx: the first item that is a link
yields its href, the first item that is a submenu with a non-empty
children array yields its first child's href, whichever comes first in
the array; `#/` is the fallback. -/
def findDefaultHref : List NavItem → String
  | [] => "#/"
  | .link l :: _ => l.href
  | .submenu _ _ children :: rest =>
    match children with
    | c :: _ => c.href
    | [] => findDefaultHref rest
  | .header _ :: rest => findDefaultHref rest

/-- The hash `PageContent` resolves against the nav items:
`hash === '#/' ? findDefaultHref(navItems) : hash`. -/
def routeHash (navItems : List NavItem) (hash : String) : String :=
  if hash = "#/" then findDefaultHref navItems else hash

/-- The route `PageContent` computes for the current hash. -/
def pageRoute (navItems : List NavItem) (hash : String) : Option (NavLink × String) :=
  findNavItemByHref navItems (routeHash navItems hash)

/-! ## Frame resolution (src/App.tsx, the `useEffect` of `PageContent`) -/

/-- The outcome the `useEffect` of `PageContent` stores: no frame at
all (the welcome state, when the active item has no `iframeUrl`), a
blocked state carrying the error message rendered under the `Content
Blocked` heading (with `finalIframeUrl` set to null), or a frame whose
`finalIframeUrl` is the serialisation of the given URL. -/
inductive FrameOutcome where
  | welcome
  | blocked (msg : String)
  | frame (u : Url)
deriving Repr, DecidableEq

/-- The message of the invalid-URL error path. -/
def invalidUrlMsg : String := "The configured iframe URL is invalid."

/-- The message of the domain allow-list error path. -/
def securityMsg : String :=
  "For security reasons, only content from configured domains can be displayed."

/-- The domain allow-list test of src/App.tsx:
`allowedDomains.some(domain => hostname === domain ||
hostname.endsWith('.' + domain))`. -/
def isAllowedHost (allowedDomains : List String) (hostname : String) : Bool :=
  allowedDomains.any fun domain =>
    hostname = domain || strEndsWith hostname ("." ++ domain)

/-- The body of the `useEffect` of `PageContent`: with no configured
`iframeUrl` the frame is cleared (welcome state); otherwise the URL is
parsed against the window origin (an unparsable URL is blocked with
`invalidUrlMsg`), the allow-list is checked unless the configured
string starts with `/` or `./` (a failing check blocks with
`securityMsg`), the address-bar query parameters are appended after
the URL's own, and a non-empty leftover hash replaces the fragment. -/
def resolveIframe (allowedDomains : List String) (originScheme originHost : String)
    (search : List (String × String)) (iframeUrl? : Option String)
    (iframeHash : String) : FrameOutcome :=
  match iframeUrl? with
  | none => .welcome
  | some iframeUrl =>
    let isRelative := strStartsWith iframeUrl "/" || strStartsWith iframeUrl "./"
    match parseURL originScheme originHost iframeUrl with
    | none => .blocked invalidUrlMsg
    | some finalUrl =>
      if !isRelative && !isAllowedHost allowedDomains finalUrl.host then
        .blocked securityMsg
      else
        let withParams := { finalUrl with query := finalUrl.query ++ search }
        .frame (if iframeHash ≠ "" then setHash withParams iframeHash else withParams)

/-- The full content resolution of `PageContent` as a function of the
loaded settings, the window origin, the location hash and the
address-bar query string: resolve the route, then resolve the frame of
the active item's `iframeUrl` and leftover hash
(`match?.iframeHash ?? ''`). -/
def pageContentOutcome (settings : AppSettings) (originScheme originHost hash : String)
    (search : List (String × String)) : FrameOutcome :=
  let navItems := settings.sidebar.navItems
  match pageRoute navItems hash with
  | none => resolveIframe (allowedOf settings) originScheme originHost search none ""
  | some (l, iframeHash) =>
    resolveIframe (allowedOf settings) originScheme originHost search l.iframeUrl iframeHash

/-! ## Sidebar state (src/components/Sidebar.tsx) -/

/-- `toggleSubmenu` from src/components/Sidebar.tsx: on the set of open
submenu paths, delete `path` when present, add it when absent. -/
def toggleSubmenu (path : String) (openSubmenus : Finset String) : Finset String :=
  if path ∈ openSubmenus then openSubmenus.erase path else insert path openSubmenus

/-- What the sidebar renders for one nav item: the item together with
the open flag passed to its `SidebarItem`
(`item.type === 'submenu' ? openSubmenus.has(item.path) : false`). -/
structure RenderedSidebarItem where
  item : NavItem
  isOpen : Bool
deriving Repr, DecidableEq

/-- The list of `SidebarItem`s the sidebar renders: one per entry of
`settings.navItems`, in array order
(`settings.navItems.map((item, index) => <SidebarItem ... />)`). -/
def sidebarRenderedItems (navItems : List NavItem) (openSubmenus : Finset String) :
    List RenderedSidebarItem :=
  navItems.map fun item =>
    { item := item
      isOpen :=
        match item with
        | .submenu _ path _ => decide (path ∈ openSubmenus)
        | _ => false }

/-! ## Persistent browser storage (src/App.tsx and src/components/Sidebar.tsx) -/

/-- One `localStorage.setItem(key, value)` call. -/
structure StorageWrite where
  key : String
  value : String
deriving Repr, DecidableEq

/-- JSON serialisation of one string, as `JSON.stringify` produces for
the plain path strings stored here (backslash and double quote
escaped; other control-character escapes are outside the model). -/
def jsonString (s : String) : String :=
  "\"" ++ String.join (s.toList.map fun c =>
    if c = '\\' then "\\\\"
    else if c = '"' then "\\\""
    else String.singleton c) ++ "\""

/-- JSON serialisation of an array of strings, as
`JSON.stringify(Array.from(openSubmenus))` produces. -/
def jsonStringArray (xs : List String) : String :=
  "[" ++ String.intercalate "," (xs.map jsonString) ++ "]"

/-- The sidebar-state persistence effect of `AppLayout`
(src/App.tsx): on desktop it writes `sidebarState` as `expanded` or
`collapsed`; on mobile it writes nothing. -/
def sidebarStateEffect (isMobile isExpanded : Bool) : Option StorageWrite :=
  if isMobile then none
  else some ⟨"sidebarState", if isExpanded then "expanded" else "collapsed"⟩

/-- The open-submenus persistence effect of `Sidebar`
(src/components/Sidebar.tsx): it writes `openSubmenus` as the JSON
serialisation of the array of open submenu paths. -/
def openSubmenusEffect (paths : List String) : StorageWrite :=
  ⟨"openSubmenus", jsonStringArray paths⟩

/-- The persistent browser-storage writes the application performs:
the two `localStorage.setItem` calls above are the only ones in the
source.  Modelled from the spec for the components whose sources are
not available (`SidebarItem`, `useLocation`, `constants`, `index`):
per the spec there is no persistence engine beyond these key-value
flags, so they contribute no writes. -/
inductive AppStorageWrite : StorageWrite → Prop where
  | sidebarState (isMobile isExpanded : Bool) (w : StorageWrite)
      (h : sidebarStateEffect isMobile isExpanded = some w) : AppStorageWrite w
  | openSubmenus (paths : List String) : AppStorageWrite (openSubmenusEffect paths)

/-! ## Settings loading (src/contexts/SettingsContext.tsx) -/

/-- The settings-loading effect of `SettingsProvider`
(src/contexts/SettingsContext.tsx): the document fetched from
`/settings.json` is stored unchanged; the page's URL query parameters
are not consulted anywhere in the provider. -/
def storeSettings (fetched : AppSettings) (urlParams : List (String × String)) :
    AppSettings :=
  fetched

/-! ## Spec-side formulations used by refinement-style claims -/

/-- The default href a nav item would supply on its own: a link's
href, or a non-empty submenu's first child's href. -/
def defaultCandidate : NavItem → Option String
  | .link l => some l.href
  | .submenu _ _ (c :: _) => some c.href
  | _ => none

/-- The href of the first `link` entry of the array, if any. -/
def firstLinkHref : List NavItem → Option String
  | [] => none
  | .link l :: _ => some l.href
  | _ :: rest => firstLinkHref rest

/-- The href of the first child of the first `submenu` entry with a
non-empty children array, if any. -/
def firstSubmenuChildHref : List NavItem → Option String
  | [] => none
  | .submenu _ _ (c :: _) :: _ => some c.href
  | _ :: rest => firstSubmenuChildHref rest

/-- The default href as claim C6 words it: the first `link` entry's
href when one exists, otherwise the first child of the first non-empty
`submenu`, otherwise `#/`. -/
def claimedDefaultHref (navItems : List NavItem) : String :=
  ((firstLinkHref navItems).orElse fun _ => firstSubmenuChildHref navItems).getD "#/"

/-! ## Concrete inputs used by witnesses and counterexamples -/

/-- A small concrete sidebar configuration. -/
def exSidebar : SidebarSettings :=
  ⟨"expanded", "/logo.png", ⟨"Jo", "Admin", "user", "#/profile"⟩,
    [NavItem.link ⟨"#/home", "Home", some "/home.html"⟩]⟩

/-- A small concrete settings document. -/
def exSettings : AppSettings :=
  ⟨[("primary", "hsl(220, 13%, 61%)")], some ⟨["mypancho.com"]⟩, exSidebar⟩

/-- Nav items where a non-empty submenu precedes a link, separating the
code's scan order from the order claim C6 describes. -/
def c6Nav : List NavItem :=
  [NavItem.submenu "Group" "grp" [⟨"#/sub", "Sub", none⟩],
   NavItem.link ⟨"#/lnk", "Link", none⟩]

/-! ## Claim theorems -/

/-- C10: `toggleSubmenu(path)` removes `path` from the set of open
submenus when present and adds it when absent; toggling twice with the
same path restores the original set, and no other element's membership
is changed by a toggle. -/
theorem C10_toggleSubmenu_involution (path : String) (openSubmenus : Finset String) :
    toggleSubmenu path (toggleSubmenu path openSubmenus) = openSubmenus
    ∧ (path ∈ toggleSubmenu path openSubmenus ↔ path ∉ openSubmenus)
    ∧ ∀ q : String, q ≠ path →
        (q ∈ toggleSubmenu path openSubmenus ↔ q ∈ openSubmenus) := by
  unfold toggleSubmenu
  by_cases h : path ∈ openSubmenus
  · rw [if_pos h]
    have hne : path ∉ openSubmenus.erase path := Finset.not_mem_erase path openSubmenus
    refine ⟨?_, ?_, ?_⟩
    · rw [if_neg hne, Finset.insert_erase h]
    · simp [hne, h]
    · intro q hq
      simp [Finset.mem_erase, hq]
  · rw [if_neg h]
    have hmem : path ∈ insert path openSubmenus := Finset.mem_insert_self path openSubmenus
    refine ⟨?_, ?_, ?_⟩
    · rw [if_pos hmem, Finset.erase_insert h]
    · simp [hmem, h]
    · intro q hq
      simp [Finset.mem_insert, hq]

/-- Witness for C10 at a concrete path and set. -/
theorem C10_toggleSubmenu_involution_witness :
    toggleSubmenu "account" (toggleSubmenu "account" ({"billing"} : Finset String))
      = ({"billing"} : Finset String)
    ∧ ("billing" ∈ toggleSubmenu "account" ({"billing"} : Finset String) ↔
        "billing" ∈ ({"billing"} : Finset String)) := by
  have h := C10_toggleSubmenu_involution "account" ({"billing"} : Finset String)
  exact ⟨h.1, h.2.2 "billing" (by decide)⟩

/-- C9: the sidebar renders exactly one `SidebarItem` per entry of
`settings.sidebar.navItems`, in array order, and a rendered item is
open precisely when it is a submenu whose path is in the open-submenu
set. -/
theorem C9_sidebar_renders_config (navItems : List NavItem) (opens : Finset String) :
    (sidebarRenderedItems navItems opens).length = navItems.length
    ∧ ∀ (i : ℕ) (hi : i < navItems.length)
        (hi2 : i < (sidebarRenderedItems navItems opens).length),
        ((sidebarRenderedItems navItems opens)[i]).item = navItems[i]
        ∧ (((sidebarRenderedItems navItems opens)[i]).isOpen = true ↔
            ∃ label children, ∃ path ∈ opens,
              navItems[i] = NavItem.submenu label path children) := by
  refine ⟨by simp [sidebarRenderedItems], ?_⟩
  intro i hi hi2
  refine ⟨by simp [sidebarRenderedItems], ?_⟩
  simp only [sidebarRenderedItems, List.getElem_map]
  cases h : navItems[i] with
  | link l => simp
  | header label => simp
  | submenu label path children =>
    simp only [decide_eq_true_eq]
    constructor
    · intro hp
      exact ⟨label, children, path, hp, rfl⟩
    · rintro ⟨label', children', path', hp', heq⟩
      injection heq with e1 e2 e3
      rw [e2]
      exact hp'

/-- Witness for C9 on the concrete configuration. -/
theorem C9_sidebar_renders_config_witness :
    (sidebarRenderedItems c6Nav {"grp"}).length = c6Nav.length
    ∧ ((sidebarRenderedItems c6Nav {"grp"}).get ⟨0, by decide⟩).item
        = c6Nav.get ⟨0, by decide⟩ := by
  have h := C9_sidebar_renders_config c6Nav {"grp"}
  exact ⟨h.1, (h.2 0 (by decide) (by decide)).1⟩

/-- C7: the only persistent browser-storage writes are the
`sidebarState` flag, whose value is always `expanded` or `collapsed`,
and the `openSubmenus` flag, whose value is always the JSON
serialisation of the array of open submenu paths; on mobile the
`sidebarState` effect writes nothing. -/
theorem C7_storage_writes (w : StorageWrite) (h : AppStorageWrite w) :
    ((w.key = "sidebarState" ∧ (w.value = "expanded" ∨ w.value = "collapsed"))
      ∨ (w.key = "openSubmenus" ∧ ∃ paths : List String, w.value = jsonStringArray paths))
    ∧ ∀ e : Bool, sidebarStateEffect true e = none := by
  refine ⟨?_, fun e => rfl⟩
  cases h with
  | sidebarState isMobile isExpanded w heq =>
    cases isMobile with
    | true => simp [sidebarStateEffect] at heq
    | false =>
      simp only [sidebarStateEffect, if_neg Bool.false_ne_true, Option.some.injEq] at heq
      subst heq
      cases isExpanded with
      | true => exact Or.inl ⟨rfl, Or.inl rfl⟩
      | false => exact Or.inl ⟨rfl, Or.inr rfl⟩
  | openSubmenus paths =>
    exact Or.inr ⟨rfl, paths, rfl⟩

/-- Witness for C7 at a concrete write. -/
theorem C7_storage_writes_witness :
    (openSubmenusEffect ["grp"]).key = "openSubmenus"
    ∨ (openSubmenusEffect ["grp"]).key = "sidebarState" := by
  rcases (C7_storage_writes _ (AppStorageWrite.openSubmenus ["grp"])).1 with h | h
  · exact Or.inr h.1
  · exact Or.inl h.1

/-- C2: contrary to the README and spec, `SettingsProvider` stores the
fetched `settings.json` document unchanged and never consults the
page's URL query parameters, so a `logoUrl` (or theme-key) query
parameter does not override the file's value. -/
theorem C2_no_query_override :
    (storeSettings exSettings [("logoUrl", "https://example.com/new-logo.png")]).sidebar.logoUrl
      = "/logo.png"
    ∧ "/logo.png" ≠ "https://example.com/new-logo.png"
    ∧ ∀ (fetched : AppSettings) (params : List (String × String)),
        storeSettings fetched params = fetched :=
  ⟨rfl, by decide, fun _ _ => rfl⟩

/-- C8: the resolved content of the frame is a deterministic function
of the loaded settings, the window origin, the location hash and the
query string: two runs over identical inputs produce the identical
outcome. -/
theorem C8_outcome_deterministic (s₁ s₂ : AppSettings)
    (os₁ os₂ oh₁ oh₂ h₁ h₂ : String) (q₁ q₂ : List (String × String))
    (hs : s₁ = s₂) (ho : os₁ = os₂) (hh : oh₁ = oh₂) (hl : h₁ = h₂) (hq : q₁ = q₂) :
    pageContentOutcome s₁ os₁ oh₁ h₁ q₁ = pageContentOutcome s₂ os₂ oh₂ h₂ q₂ := by
  subst hs
  subst ho
  subst hh
  subst hl
  subst hq
  rfl

/-- Witness for C8 at a concrete run. -/
theorem C8_outcome_deterministic_witness :
    pageContentOutcome exSettings "https" "example.com" "#/" []
      = pageContentOutcome exSettings "https" "example.com" "#/" [] :=
  C8_outcome_deterministic exSettings exSettings "https" "https" "example.com" "example.com"
    "#/" "#/" [] [] rfl rfl rfl rfl rfl

/-- `findDefaultHref` takes the contribution of the first item, in
array order, that is a link or a submenu with non-empty children. -/
theorem findDefaultHref_findSome (navItems : List NavItem) :
    findDefaultHref navItems = (navItems.findSome? defaultCandidate).getD "#/" := by
  induction navItems with
  | nil => rfl
  | cons item rest ih =>
    cases item with
    | link l => simp [findDefaultHref, defaultCandidate, List.findSome?_cons]
    | header label => simpa [findDefaultHref, defaultCandidate, List.findSome?_cons] using ih
    | submenu label path children =>
      cases children with
      | nil => simpa [findDefaultHref, defaultCandidate, List.findSome?_cons] using ih
      | cons c cs => simp [findDefaultHref, defaultCandidate, List.findSome?_cons]

/-- C6 counterexample: with a non-empty submenu ahead of a link,
`findDefaultHref` returns the submenu's first child's href, not the
href of the first `link` entry the claim names; the route for `#/` is
resolved with the submenu child's href. -/
theorem C6_counterexample :
    findDefaultHref c6Nav = "#/sub"
    ∧ claimedDefaultHref c6Nav = "#/lnk"
    ∧ findDefaultHref c6Nav ≠ claimedDefaultHref c6Nav
    ∧ pageRoute c6Nav "#/" = some (⟨"#/sub", "Sub", none⟩, "") := by decide

/-- C6 (amended): when the hash is exactly `#/`, the route is resolved
using `findDefaultHref`, which yields the contribution of the first
entry, in array order, that is of type `link` (its href) or of type
`submenu` with a non-empty children array (its first child's href),
whichever comes first, and `#/` when there is none. -/
theorem C6_default_route (navItems : List NavItem) (hash : String) (h : hash = "#/") :
    pageRoute navItems hash = findNavItemByHref navItems (findDefaultHref navItems)
    ∧ findDefaultHref navItems = (navItems.findSome? defaultCandidate).getD "#/" := by
  refine ⟨?_, findDefaultHref_findSome navItems⟩
  subst h
  simp [pageRoute, routeHash]

/-- Witness for C6 on the concrete configuration. -/
theorem C6_default_route_witness :
    pageRoute c6Nav "#/" = findNavItemByHref c6Nav (findDefaultHref c6Nav)
    ∧ findDefaultHref c6Nav = (c6Nav.findSome? defaultCandidate).getD "#/" :=
  C6_default_route c6Nav "#/" rfl

/-- C5: a configured `iframeUrl` is subjected to the domain allow-list
check exactly when it does not start with `/` or `./`: with such a
prefix the outcome is independent of the allow-list and is never the
domain security error, and without it a resolved URL whose hostname
fails the allow-list is blocked with the security error. -/
theorem C5_relative_skips_check (iframeUrl : String) (allowed allowed2 : List String)
    (os oh : String) (search : List (String × String)) (ih : String) :
    (strStartsWith iframeUrl "/" = true ∨ strStartsWith iframeUrl "./" = true →
      resolveIframe allowed os oh search (some iframeUrl) ih
        = resolveIframe allowed2 os oh search (some iframeUrl) ih
      ∧ resolveIframe allowed os oh search (some iframeUrl) ih ≠ .blocked securityMsg)
    ∧ (strStartsWith iframeUrl "/" = false → strStartsWith iframeUrl "./" = false →
        ∀ u, parseURL os oh iframeUrl = some u → isAllowedHost allowed u.host = false →
          resolveIframe allowed os oh search (some iframeUrl) ih
            = .blocked securityMsg) := by
  constructor
  · intro h
    have hrel : (strStartsWith iframeUrl "/" || strStartsWith iframeUrl "./") = true := by
      rcases h with h | h <;> simp [h]
    simp only [resolveIframe]
    rcases hp : parseURL os oh iframeUrl with _ | u
    · exact ⟨rfl, by simp [invalidUrlMsg, securityMsg]⟩
    · simp [hrel]
  · intro h1 h2 u hp hall
    simp only [resolveIframe]
    simp [hp, h1, h2, hall]

/-- Witness for C5: a protocol-relative URL bypasses the check and
resolves to a host other than the page's origin. -/
theorem C5_relative_skips_check_witness :
    resolveIframe [] "https" "example.com" [] (some "//evil.com/x") ""
      = resolveIframe ["mypancho.com"] "https" "example.com" [] (some "//evil.com/x") ""
    ∧ resolveIframe [] "https" "example.com" [] (some "//evil.com/x") ""
        ≠ FrameOutcome.blocked securityMsg
    ∧ resolveIframe [] "https" "example.com" [] (some "//evil.com/x") ""
        = FrameOutcome.frame ⟨"https", "evil.com", "/x", [], ""⟩ := by
  have h := (C5_relative_skips_check "//evil.com/x" [] ["mypancho.com"]
    "https" "example.com" [] "").1 (Or.inl (by decide))
  exact ⟨h.1, h.2, by decide⟩

/-- C1 counterexample: with an empty allow-list, the root-relative
`iframeUrl` `/app` resolves to the page's hostname, which fails the
allow-list test, yet a frame URL is produced instead of the security
error the claim requires for every configured `iframeUrl`. -/
theorem C1_counterexample :
    isAllowedHost [] "example.com" = false
    ∧ parseURL "https" "example.com" "/app"
        = some ⟨"https", "example.com", "/app", [], ""⟩
    ∧ resolveIframe [] "https" "example.com" [] (some "/app") ""
        = FrameOutcome.frame ⟨"https", "example.com", "/app", [], ""⟩ := by decide

/-- C1 (amended): for every configured `iframeUrl` that does not start
with `/` or `./`, the domain allow-list is enforced before embedding:
a resolved URL whose hostname neither equals an allow-list entry nor
ends with `.` followed by one is blocked with the security error and
no frame URL is produced, and a frame URL is produced only for a
hostname that passes the test. -/
theorem C1_allowlist_on_absolute (allowed : List String) (os oh iframeUrl : String)
    (search : List (String × String)) (ih : String)
    (h1 : strStartsWith iframeUrl "/" = false) (h2 : strStartsWith iframeUrl "./" = false) :
    (∀ u, parseURL os oh iframeUrl = some u → isAllowedHost allowed u.host = false →
        resolveIframe allowed os oh search (some iframeUrl) ih = .blocked securityMsg)
    ∧ ∀ u, resolveIframe allowed os oh search (some iframeUrl) ih = .frame u →
        ∃ p, parseURL os oh iframeUrl = some p ∧ isAllowedHost allowed p.host = true := by
  constructor
  · intro u hp hall
    simp only [resolveIframe]
    simp [hp, h1, h2, hall]
  · intro u hf
    simp only [resolveIframe] at hf
    rcases hp : parseURL os oh iframeUrl with _ | p
    · rw [hp] at hf
      simp at hf
    · rw [hp] at hf
      by_cases hall : isAllowedHost allowed p.host = true
      · exact ⟨p, rfl, hall⟩
      · have hall2 : isAllowedHost allowed p.host = false := by
          simpa using hall
        simp [h1, h2, hall2] at hf

/-- Witness for C1 at a concrete disallowed absolute URL. -/
theorem C1_allowlist_on_absolute_witness :
    resolveIframe ["mypancho.com"] "https" "example.com" [] (some "https://evil.com/p") ""
      = FrameOutcome.blocked securityMsg := by
  have h := (C1_allowlist_on_absolute ["mypancho.com"] "https" "example.com"
    "https://evil.com/p" [] "" (by decide) (by decide)).1
  exact h ⟨"https", "evil.com", "/p", [], ""⟩ (by decide) (by decide)

/-- C4: for a frame URL that passes the security check, the main
page's query pairs are appended after the parameters already on the
configured URL, a non-empty leftover hash becomes the frame URL's
fragment (its leading `#` marker stripped into the fragment position),
and an empty leftover leaves the configured URL's fragment unchanged;
scheme, host and path are those of the configured URL. -/
theorem C4_passthrough (allowed : List String) (os oh iframeUrl : String)
    (search : List (String × String)) (ih : String) (u p : Url)
    (hp : parseURL os oh iframeUrl = some p)
    (hf : resolveIframe allowed os oh search (some iframeUrl) ih = .frame u) :
    u.query = p.query ++ search
    ∧ (ih = "" → u.fragment = p.fragment)
    ∧ (ih ≠ "" → u.fragment = (if strStartsWith ih "#" then ih.drop 1 else ih))
    ∧ u.scheme = p.scheme ∧ u.host = p.host ∧ u.path = p.path := by
  simp only [resolveIframe, hp] at hf
  by_cases hcond :
      (!(strStartsWith iframeUrl "/" || strStartsWith iframeUrl "./")
        && !isAllowedHost allowed p.host) = true
  · rw [if_pos hcond] at hf
    exact absurd hf (by simp)
  · rw [if_neg hcond] at hf
    injection hf with hf2
    by_cases hih : ih = ""
    · rw [if_neg (not_not_intro hih)] at hf2
      subst hf2
      exact ⟨rfl, fun _ => rfl, fun hc => absurd hih hc, rfl, rfl, rfl⟩
    · rw [if_pos hih] at hf2
      subst hf2
      refine ⟨rfl, fun hc => absurd hc hih, fun _ => ?_, rfl, rfl, rfl⟩
      simp [setHash]

/-- Witness for C4 at a concrete allowed URL with its own query
parameter, an address-bar parameter and a leftover hash. -/
theorem C4_passthrough_witness :
    (Url.query ⟨"https", "app.mypancho.com", "/p", [("x", "0"), ("q", "1")], "/sub"⟩
      = [("x", "0")] ++ [("q", "1")])
    ∧ ("#/sub" ≠ "" →
        Url.fragment ⟨"https", "app.mypancho.com", "/p", [("x", "0"), ("q", "1")], "/sub"⟩
          = (if strStartsWith "#/sub" "#" then String.drop "#/sub" 1 else "#/sub")) := by
  have h := C4_passthrough ["mypancho.com"] "https" "example.com"
    "https://app.mypancho.com/p?x=0" [("q", "1")] "#/sub"
    ⟨"https", "app.mypancho.com", "/p", [("x", "0"), ("q", "1")], "/sub"⟩
    ⟨"https", "app.mypancho.com", "/p", [("x", "0")], ""⟩ (by decide) (by decide)
  exact ⟨h.1, h.2.2.1⟩

/-! ## Invariants of the best-match scan (for claim C3) -/

/-- `checkItem` either keeps the accumulator or installs the current
link, matched, with its leftover suffix. -/
theorem checkItem_cases (href : String) (best : Option (NavLink × String)) (item : NavLink) :
    checkItem href best item = best
    ∨ (isMatch href item = true
        ∧ checkItem href best item = some (item, href.drop item.href.length)) := by
  cases hm : isMatch href item with
  | false =>
    left
    simp [checkItem, hm]
  | true =>
    cases best with
    | none => exact Or.inr ⟨rfl, by simp [checkItem, hm]⟩
    | some b =>
      obtain ⟨bl, br⟩ := b
      by_cases hl : bl.href.length < item.href.length
      · exact Or.inr ⟨rfl, by simp [checkItem, hm, hl]⟩
      · left
        simp [checkItem, hm, hl]

/-- `checkItem` yields `none` exactly when the accumulator was `none`
and the current link does not match. -/
theorem checkItem_eq_none (href : String) (best : Option (NavLink × String)) (item : NavLink) :
    checkItem href best item = none ↔ best = none ∧ isMatch href item = false := by
  cases hm : isMatch href item with
  | false => simp [checkItem, hm]
  | true =>
    cases best with
    | none => simp [checkItem, hm]
    | some b =>
      obtain ⟨bl, br⟩ := b
      by_cases hl : bl.href.length < item.href.length <;> simp [checkItem, hm, hl]

/-- `checkItem` never shortens the stored href. -/
theorem checkItem_ge (href : String) (best : Option (NavLink × String)) (item bl : NavLink)
    (br : String) (hb : best = some (bl, br)) :
    ∃ c s, checkItem href best item = some (c, s) ∧ bl.href.length ≤ c.href.length := by
  subst hb
  cases hm : isMatch href item with
  | false =>
    refine ⟨bl, br, ?_, le_refl _⟩
    simp [checkItem, hm]
  | true =>
    by_cases hl : bl.href.length < item.href.length
    · refine ⟨item, href.drop item.href.length, ?_, le_of_lt hl⟩
      simp [checkItem, hm, hl]
    · refine ⟨bl, br, ?_, le_refl _⟩
      simp [checkItem, hm, hl]

/-- After a matching link is scanned, the stored href is at least as
long as that link's. -/
theorem checkItem_match_ge (href : String) (best : Option (NavLink × String)) (item : NavLink)
    (hm : isMatch href item = true) :
    ∃ c s, checkItem href best item = some (c, s) ∧ item.href.length ≤ c.href.length := by
  cases best with
  | none =>
    refine ⟨item, href.drop item.href.length, ?_, le_refl _⟩
    simp [checkItem, hm]
  | some b =>
    obtain ⟨bl, br⟩ := b
    by_cases hl : bl.href.length < item.href.length
    · refine ⟨item, href.drop item.href.length, ?_, le_refl _⟩
      simp [checkItem, hm, hl]
    · refine ⟨bl, br, ?_, le_of_not_lt hl⟩
      simp [checkItem, hm, hl]

/-- The scan yields `none` exactly when it started from `none` and no
scanned link matches. -/
theorem foldl_checkItem_none (href : String) (ls : List NavLink) :
    ∀ best, ls.foldl (checkItem href) best = none ↔
      best = none ∧ ∀ l ∈ ls, isMatch href l = false := by
  induction ls with
  | nil =>
    intro best
    simp
  | cons a as ih =>
    intro best
    rw [List.foldl_cons, ih (checkItem href best a), checkItem_eq_none,
      List.forall_mem_cons]
    tauto

/-- A `some` result of the scan is the initial accumulator or a
matching scanned link with its leftover suffix. -/
theorem foldl_checkItem_shape (href : String) (ls : List NavLink) :
    ∀ best q, ls.foldl (checkItem href) best = some q →
      best = some q
      ∨ ∃ l ∈ ls, isMatch href l = true ∧ q = (l, href.drop l.href.length) := by
  induction ls with
  | nil =>
    intro best q h
    exact Or.inl h
  | cons a as ih =>
    intro best q h
    rw [List.foldl_cons] at h
    rcases ih _ q h with hb | ⟨l, hl, hm, hq⟩
    · rcases checkItem_cases href best a with hc | ⟨hm, hc⟩
      · rw [hc] at hb
        exact Or.inl hb
      · rw [hc] at hb
        injection hb with hb2
        exact Or.inr ⟨a, List.mem_cons_self a as, hm, hb2.symm⟩
    · exact Or.inr ⟨l, List.mem_cons_of_mem a hl, hm, hq⟩

/-- The scan keeps a `some` accumulator and never shortens its href. -/
theorem foldl_checkItem_ge (href : String) (ls : List NavLink) :
    ∀ best (bl : NavLink) (br : String), best = some (bl, br) →
      ∃ c s, ls.foldl (checkItem href) best = some (c, s)
        ∧ bl.href.length ≤ c.href.length := by
  induction ls with
  | nil =>
    intro best bl br hb
    exact ⟨bl, br, hb, le_refl _⟩
  | cons a as ih =>
    intro best bl br hb
    obtain ⟨c, s, hc, hlen⟩ := checkItem_ge href best a bl br hb
    obtain ⟨c2, s2, hc2, hlen2⟩ := ih (checkItem href best a) c s hc
    rw [List.foldl_cons]
    exact ⟨c2, s2, hc2, le_trans hlen hlen2⟩

/-- Every matching scanned link bounds the final stored href length
from below. -/
theorem foldl_checkItem_max (href : String) (ls : List NavLink) :
    ∀ best l, l ∈ ls → isMatch href l = true →
      ∃ c s, ls.foldl (checkItem href) best = some (c, s)
        ∧ l.href.length ≤ c.href.length := by
  induction ls with
  | nil =>
    intro best l hl hm
    exact absurd hl (List.not_mem_nil l)
  | cons a as ih =>
    intro best l hl hm
    rw [List.foldl_cons]
    rcases List.mem_cons.mp hl with rfl | hl2
    · obtain ⟨c, s, hc, hlen⟩ := checkItem_match_ge href best l hm
      obtain ⟨c2, s2, hc2, hlen2⟩ := foldl_checkItem_ge href as _ c s hc
      exact ⟨c2, s2, hc2, le_trans hlen hlen2⟩
    · exact ih _ l hl2 hm

/-- The nested scan over items and submenu children equals the scan
over the flattened link list. -/
theorem findNavItemByHref_eq_foldl (href : String) (navItems : List NavItem) :
    ∀ best, navItems.foldl (fun b item => (linksOf item).foldl (checkItem href) b) best
      = (navLinks navItems).foldl (checkItem href) best := by
  induction navItems with
  | nil =>
    intro best
    rfl
  | cons item rest ih =>
    intro best
    rw [List.foldl_cons, ih]
    show (navLinks rest).foldl (checkItem href) ((linksOf item).foldl (checkItem href) best)
      = (linksOf item ++ navLinks rest).foldl (checkItem href) best
    rw [List.foldl_append]

/-- Nav items for the C3 witness: a shorter and a longer matching
href. -/
def c3Nav : List NavItem :=
  [NavItem.link ⟨"#/a", "A", none⟩,
   NavItem.submenu "M" "m" [⟨"#/a#b", "AB", some "/ab.html"⟩]]

/-- C3: `findNavItemByHref` returns `undefined` exactly when no nav
link (top-level link or submenu child) matches the hash, where a link
matches when the hash starts with its href and the next character is
absent or `#`; a returned link matches, carries the leftover suffix of
the hash as the iframe hash, and its href length is maximal among all
matching links. -/
theorem C3_route_resolution (navItems : List NavItem) (href : String) :
    (findNavItemByHref navItems href = none ↔
      ∀ l ∈ navLinks navItems, isMatch href l = false)
    ∧ ∀ l rest, findNavItemByHref navItems href = some (l, rest) →
        l ∈ navLinks navItems ∧ isMatch href l = true
        ∧ rest = href.drop l.href.length
        ∧ ∀ l2 ∈ navLinks navItems, isMatch href l2 = true →
            l2.href.length ≤ l.href.length := by
  have hb : findNavItemByHref navItems href
      = (navLinks navItems).foldl (checkItem href) none :=
    findNavItemByHref_eq_foldl href navItems none
  constructor
  · rw [hb, foldl_checkItem_none]
    simp
  · intro l rest h
    rw [hb] at h
    rcases foldl_checkItem_shape href (navLinks navItems) none (l, rest) h with
      hnone | ⟨l2, hl2, hm2, hq2⟩
    · exact absurd hnone.symm (by simp)
    · have hfst : l = l2 := congrArg Prod.fst hq2
      have hsnd : rest = href.drop l2.href.length := congrArg Prod.snd hq2
      subst hfst
      refine ⟨hl2, hm2, hsnd, ?_⟩
      intro l3 hl3 hm3
      obtain ⟨c, s, hc, hlen⟩ := foldl_checkItem_max href (navLinks navItems) none l3 hl3 hm3
      rw [h] at hc
      injection hc with hpair
      injection hpair with hfst2 hsnd2
      rw [hfst2]
      exact hlen

/-- Witness for C3: the longer matching href wins and the leftover
suffix is the iframe hash. -/
theorem C3_route_resolution_witness :
    (⟨"#/a#b", "AB", some "/ab.html"⟩ : NavLink) ∈ navLinks c3Nav
    ∧ isMatch "#/a#b#x" ⟨"#/a#b", "AB", some "/ab.html"⟩ = true
    ∧ "#x" = String.drop "#/a#b#x" (String.length (NavLink.href ⟨"#/a#b", "AB", some "/ab.html"⟩))
    ∧ String.length (NavLink.href (⟨"#/a", "A", none⟩ : NavLink))
        ≤ String.length (NavLink.href (⟨"#/a#b", "AB", some "/ab.html"⟩ : NavLink)) := by
  have h := (C3_route_resolution c3Nav "#/a#b#x").2
    ⟨"#/a#b", "AB", some "/ab.html"⟩ "#x" (by decide)
  exact ⟨h.1, h.2.1, h.2.2.1, h.2.2.2 ⟨"#/a", "A", none⟩ (by decide) (by decide)⟩

end Pancho
